import Mathlib

/-!
# Axiomeer marketplace — shallow embedding and verification

This file embeds the ranking-and-selection pipeline of the Axiomeer
marketplace (capability extractor, TF-IDF relevance, router, sales-agent
payload parser, trust aggregation, output validator, LLM client, shop
endpoint) as executable Lean definitions, translated function by function
from the Python source, and proves or refutes the specification's claims
about them.

Modelling conventions:
* Python floats are modelled as exact rationals (`Rat`); every IEEE float
  is a rational, and all bounds claimed here are preserved by rounding.
* `math.sqrt` and `math.log` (externally supplied float routines) are
  modelled as explicit function parameters `sqrtFn`/`logFn`.
* Python exceptions are modelled with `Option`/`Except`: a `none` or
  `.error` result is an uncaught exception.
* Python `dict` payloads of unknown shape (LLM output) are modelled by an
  inductive `Json` value; `None` is `Json.null`.
* Decimal string formatting (`{x:.2f}` etc.) is modelled by exact decimal
  rounding of the rational value.
-/

namespace Axiomeer

/-- A JSON-like Python value (`Any` that came out of `json.loads` /
`ast.literal_eval`); `null` also stands for Python `None`. -/
inductive Json where
  | null
  | bool (b : Bool)
  | num (q : Rat)
  | str (s : String)
  | arr (xs : List Json)
  | obj (kvs : List (String × Json))

/-- `dict.get(key)` on a Python dict: first binding wins (Python dict keys
are unique, so an association-list first lookup is faithful). -/
def jsonGet (kvs : List (String × Json)) (key : String) : Option Json :=
  match kvs with
  | [] => none
  | (k, v) :: rest => if k = key then some v else jsonGet rest key

/-- `dict.get(key)` returning Python `None` (= `Json.null`) when absent. -/
def jsonGetD (kvs : List (String × Json)) (key : String) : Json :=
  (jsonGet kvs key).getD Json.null

/-- The single-quote character, used by Python `repr` of strings. -/
def sq : String := String.singleton (Char.ofNat 39)

/-- Python `repr` of a list of strings, as produced by an f-string
interpolation such as `f"{sorted(xs)}"`. -/
def pyStrListRepr (xs : List String) : String :=
  "[" ++ String.intercalate ", " (xs.map (fun s => sq ++ s ++ sq)) ++ "]"

/-- Round a rational to the nearest integer, half up. -/
def ratRoundHalfUp (q : Rat) : Int := Int.floor (q + 1/2)

/-- Format a non-negative rational with `n` decimal digits, rounding half
up (models Python `f"{x:.nf}"` string formatting: the binary-float
round-half-even formatting is modelled by exact decimal rounding). -/
def fmtFixed (digits : Nat) (q : Rat) : String :=
  let scale : Int := (10 : Int) ^ digits
  let n : Int := ratRoundHalfUp (q * (scale : Rat))
  let sign := if n < 0 then "-" else ""
  let m := n.natAbs
  let ip := m / scale.natAbs
  let fp := m % scale.natAbs
  let fpStr := toString fp
  let pad := String.mk (List.replicate (digits - fpStr.length) (Char.ofNat 48))
  sign ++ toString ip ++ "." ++ pad ++ fpStr

/-- `f"{x:.2f}"`. -/
def fmt2 (q : Rat) : String := fmtFixed 2 q

/-- `f"{x:.4f}"`. -/
def fmt4 (q : Rat) : String := fmtFixed 4 q

/-- Python `round(x, n)` modelled as exact decimal rounding. -/
def pyRound (q : Rat) (digits : Nat) : Rat :=
  (ratRoundHalfUp (q * ((10 : Rat) ^ digits)) : Rat) / ((10 : Rat) ^ digits)

/-! ## `src/marketplace/core/validate.py` -/

/-- `isinstance(x, str) and x.strip()`: a non-blank string value. -/
def isNonBlankStr (v : Json) : Bool :=
  match v with
  | .str s => s.trim != ""
  | _ => false

/-- `isinstance(cites, list) and len(cites) > 0 and all(isinstance(x, str)
and x.strip() for x in cites)`: the citations-field check of
`validate_output`. -/
def citesFieldOk (v : Json) : Bool :=
  match v with
  | .arr xs => xs.length != 0 && xs.all isNonBlankStr
  | _ => false

/-- `validate_output(payload, require_citations)`: checks a provider
payload against the citation/timestamp contract and returns the list of
error strings, translated from `validate.py`. -/
def validate_output (payload : Json) (require_citations : Bool) : List String :=
  match payload with
  | .obj kvs =>
    let errors : List String := []
    let errors :=
      if require_citations && !citesFieldOk (jsonGetD kvs "citations") then
        errors ++ ["Citations required but missing or invalid. Expected non-empty list field: citations: [str]."]
      else errors
    let errors :=
      if require_citations && !isNonBlankStr (jsonGetD kvs "retrieved_at") then
        errors ++ ["Citations required but retrieved_at timestamp is missing."]
      else errors
    errors
  | _ => ["Provider output must be a JSON object."]

/-! ## `src/marketplace/llm/ollama_client.py` -/

/-- `OLLAMA_URL` default from `settings.py`. -/
def OLLAMA_URL : String := "http://localhost:11434/api/generate"

/-- `OLLAMA_TIMEOUT` default from `settings.py`. -/
def OLLAMA_TIMEOUT : Nat := 60

/-- The observable outcome of the `requests.post` call inside
`ollama_generate`: the connection fails, the request times out, or an HTTP
response arrives with a status code and a body (`none` body = the body is
not valid JSON, so `r.json()` raises). -/
inductive HttpResult where
  | connError
  | timeout
  | status (code : Nat) (body : Option Json)

/-- The Python exception classes that can escape `ollama_generate`. -/
inductive PyError where
  | ollamaConnectionError (msg : String)
  | httpStatusError (code : Nat)
  | jsonDecodeError
  | attributeError
deriving Repr, DecidableEq

/-- The exception class name (the error *kind*) of a raised exception. -/
def PyError.kindName : PyError → String
  | .ollamaConnectionError _ => "OllamaConnectionError"
  | .httpStatusError _ => "HTTPError"
  | .jsonDecodeError => "JSONDecodeError"
  | .attributeError => "AttributeError"

/-- The message carried by the exception (`str(e)`). -/
def PyError.message : PyError → String
  | .ollamaConnectionError msg => msg
  | .httpStatusError code => "HTTP " ++ toString code
  | .jsonDecodeError => "invalid json body"
  | .attributeError => "attribute error"

/-- `data.get("response", "").strip()` on the decoded body: `data` must be
a dict and the `response` field, when present, a string (otherwise Python
raises `AttributeError` calling `.strip()` on a non-string / `.get` on a
non-dict). -/
def responseText (data : Json) : Except PyError String :=
  match data with
  | .obj kvs =>
    match jsonGet kvs "response" with
    | none => .ok "".trim
    | some (.str s) => .ok s.trim
    | some _ => .error .attributeError
  | _ => .error .attributeError

/-- `ollama_generate` from `ollama_client.py`, as a function of the HTTP
outcome: connection failures and timeouts are re-raised as
`OllamaConnectionError` (with distinct messages), `raise_for_status`
raises `HTTPError` on 4xx/5xx, and the decoded body's `response` field is
returned stripped. -/
def ollama_generate (r : HttpResult) : Except PyError String :=
  match r with
  | .connError =>
    .error (.ollamaConnectionError
      ("Cannot connect to Ollama at " ++ OLLAMA_URL ++ ". Make sure Ollama is running: https://ollama.ai"))
  | .timeout =>
    .error (.ollamaConnectionError
      ("Ollama request timed out after " ++ toString OLLAMA_TIMEOUT ++ "s. The model may still be loading — try again."))
  | .status code body =>
    if 400 ≤ code ∧ code < 600 then .error (.httpStatusError code)
    else
      match body with
      | none => .error .jsonDecodeError
      | some data => responseText data

/-! ## `src/marketplace/core/cap_extractor.py` -/

/-- The fixed allowed capability vocabulary `ALLOWED_CAPS`. -/
def ALLOWED_CAPS : List String :=
  ["weather", "finance", "search", "realtime", "citations", "math",
   "coding", "docs", "summarize", "translate"]

/-- The keyword table `DOMAIN_KEYWORDS`, in source order (Python dicts
preserve insertion order, which fixes the output order of the
heuristics). -/
def DOMAIN_KEYWORDS : List (String × List String) :=
  [("weather", ["weather", "temperature", "forecast", "rain", "snow", "humidity", "wind", "storm", "climate"]),
   ("finance", ["cpi", "inflation", "stock", "market", "price", "gdp", "unemployment", "earnings", "revenue", "interest rate", "exchange rate", "currency", "forex", "dollar", "euro", "yen"]),
   ("math", ["calculate", "compute", "solve", "equation", "derivative", "integral", "number", "prime", "factorial"]),
   ("coding", ["python", "javascript", "bug", "error", "stack trace", "compile", "code", "function"]),
   ("translate", ["translate", "translation", "in spanish", "in french", "in hindi"]),
   ("summarize", ["summarize", "summary", "tl;dr", "key points"]),
   ("docs", ["documentation", "api docs", "readme", "spec", "schema", "definition", "meaning", "dictionary", "define"]),
   ("search", ["search", "look up", "find", "who is", "what is", "where is", "country", "capital", "population", "book", "author", "library"])]

/-- Python substring test `needle in hay` on char lists. -/
def charsContain (hay needle : List Char) : Bool :=
  needle.isPrefixOf hay ||
    match hay with
    | [] => false
    | _ :: rest => charsContain rest needle

/-- Python `needle in hay` for strings. -/
def strContains (hay needle : String) : Bool :=
  charsContain hay.toList needle.toList

/-- `any(w in t for w in words)`. -/
def anyKeyword (t : String) (words : List String) : Bool :=
  words.any (fun w => strContains t w)

/-- The citation trigger words of the extractor. -/
def CITE_WORDS : List String :=
  ["citation", "citations", "cite", "sources", "source", "link", "links"]

/-- The realtime trigger words of the extractor. -/
def RT_WORDS : List String := ["latest", "current", "today", "now", "this week"]

/-- The citations block shared by `_heuristic_caps` and
`extract_capabilities`: append "citations" when forced or triggered and
not yet present (the list and the `seen` set always hold the same
capabilities, so the membership test is on the accumulated list). -/
def citeStep (t : String) (force_citations : Bool) (acc : List String) : List String :=
  if (force_citations || anyKeyword t CITE_WORDS) && !(acc.contains "citations") then
    acc ++ ["citations"]
  else acc

/-- The realtime block shared by `_heuristic_caps` and
`extract_capabilities`. -/
def rtStep (t : String) (acc : List String) : List String :=
  if anyKeyword t RT_WORDS && !(acc.contains "realtime") then acc ++ ["realtime"] else acc

/-- `_heuristic_caps(task, force_citations)`: deterministic keyword-based
capability extraction, translated from `cap_extractor.py` (the keyword
loop over the insertion-ordered dict is a filter-map since the keys are
distinct). -/
def heuristic_caps (task : String) (force_citations : Bool) : List String :=
  rtStep task.toLower (citeStep task.toLower force_citations
    ((DOMAIN_KEYWORDS.filter (fun cw => anyKeyword task.toLower cw.2)).map (·.1)))

/-- The brace-slicing step shared by the extractor (and the sales agent):
`if "{" in raw and "}" in raw: raw = raw[raw.find("{") : raw.rfind("}")+1]`. -/
def braceSlice (raw : String) : String :=
  let cs := raw.toList
  let ob := Char.ofNat 123
  let cb := Char.ofNat 125
  if cs.contains ob && cs.contains cb then
    let start := (cs.indexOf ob)
    let stop := cs.length - 1 - (cs.reverse.indexOf cb)
    String.mk ((cs.drop start).take (stop + 1 - start))
  else raw

/-- One step of the dedupe-and-filter pass over the LLM-provided
capability list: keep a non-blank string, stripped and lowercased, if it
is in `ALLOWED_CAPS` and not yet accumulated. -/
def dedupeStep (acc : List String) (x : Json) : List String :=
  match x with
  | .str c =>
    if c.trim = "" then acc
    else
      let c := c.trim.toLower
      if ALLOWED_CAPS.contains c && !(acc.contains c) then acc ++ [c] else acc
  | _ => acc

/-- The dedupe-and-filter pass of `extract_capabilities` over the
LLM-provided list. -/
def dedupeAllowed (xs : List Json) : List String :=
  xs.foldl dedupeStep []

/-- One step of the keyword augmentation loop over `DOMAIN_KEYWORDS`. -/
def domainStep (t : String) (acc : List String) (cw : String × List String) : List String :=
  if anyKeyword t cw.2 && !(acc.contains cw.1) then acc ++ [cw.1] else acc

/-- The augmentation passes of `extract_capabilities` after the LLM list
was deduped: heuristic keywords, forced/triggered citations, realtime. -/
def augmentCaps (task : String) (force_citations : Bool) (deduped : List String) : List String :=
  rtStep task.toLower (citeStep task.toLower force_citations
    (DOMAIN_KEYWORDS.foldl (domainStep task.toLower) deduped))

/-- The body of the `try` block of `extract_capabilities` after
`json.loads` succeeded: any shape error (non-dict object, non-list
`capabilities`) is caught by the blanket `except Exception` and degrades
to the heuristic result. -/
def llmCapsPath (obj : Json) (task : String) (force_citations : Bool) : List String :=
  match obj with
  | .obj kvs =>
    match (jsonGet kvs "capabilities").getD (Json.arr []) with
    | .arr xs => augmentCaps task force_citations (dedupeAllowed xs)
    | _ => heuristic_caps task force_citations
  | _ => heuristic_caps task force_citations

/-- `extract_capabilities(task, force_citations)` from `cap_extractor.py`,
as a function of the LLM call outcome `llm` and of the Python `json.loads`
parser, modelled as an oracle `parseFn` (`none` = `json.loads` raised).
Only `OllamaConnectionError` is caught around the LLM call; every
exception after it is caught by the blanket `except Exception`. -/
def extract_capabilities (llm : HttpResult) (parseFn : String → Option Json)
    (task : String) (force_citations : Bool) : Except PyError (List String) :=
  match ollama_generate llm with
  | .error (.ollamaConnectionError _) => .ok (heuristic_caps task force_citations)
  | .error e => .error e
  | .ok raw =>
    let raw := braceSlice raw.trim
    match parseFn raw with
    | none => .ok (heuristic_caps task force_citations)
    | some obj => .ok (llmCapsPath obj task force_citations)

/-! ## `src/marketplace/core/router.py` -/

/-- Router scoring weights, the defaults from `settings.py`. -/
def W_CAP : Rat := 7/10

/-- `W_LAT` default. -/
def W_LAT : Rat := 1/5

/-- `W_COST` default. -/
def W_COST : Rat := 1/10

/-- `W_TRUST` default. -/
def W_TRUST : Rat := 3/20

/-- `W_REL` default. -/
def W_REL : Rat := 1/4

/-- `MIN_CAP_COVERAGE` default. -/
def MIN_CAP_COVERAGE : Rat := 1

/-- `MIN_RELEVANCE_SCORE` default. -/
def MIN_RELEVANCE_SCORE : Rat := 2/25

/-- `MIN_TOTAL_SCORE` default. -/
def MIN_TOTAL_SCORE : Rat := 11/20

/-- The constraint object `{citations_required, freshness, max_latency_ms,
max_cost_usd}` from `core/models.py` (pydantic validates `max_latency_ms ≥ 1`
and `max_cost_usd ≥ 0` when set; `freshness`, when set, is one of the
non-empty literals `static|daily|realtime`). -/
structure Constraints where
  citations_required : Bool := true
  freshness : Option String := none
  max_latency_ms : Option Int := none
  max_cost_usd : Option Rat := none
deriving DecidableEq, Repr

/-- `ShopRequest` from `core/models.py` (fields the router reads). -/
structure ShopRequest where
  task : String
  required_capabilities : List String := []
  constraints : Constraints := {}
deriving DecidableEq, Repr

/-- One candidate dict of `recommend`'s `apps` argument, with the keys the
shop endpoint supplies (`id, name, description, capabilities, freshness,
citations_supported, latency_est_ms, cost_est_usd, trust_score`). -/
structure AppDict where
  id : String
  name : String
  description : String
  capabilities : List String
  freshness : String
  citations_supported : Bool
  latency_est_ms : Int
  cost_est_usd : Rat
  trust_score : Option Rat := none
deriving DecidableEq, Repr

/-- `Recommendation` from `core/models.py`. -/
structure Recommendation where
  app_id : String
  name : String
  score : Rat
  why : List String := []
  rationale : Option String := none
  tradeoff : Option String := none
  trust_score : Option Rat := none
deriving DecidableEq, Repr

/-- A character matched by the regex class `[a-z0-9]`. -/
def isTokChar (c : Char) : Bool :=
  (Char.ofNat 97 ≤ c && c ≤ Char.ofNat 122) || (Char.ofNat 48 ≤ c && c ≤ Char.ofNat 57)

/-- Splitter for `re.findall(r"[a-z0-9]+", ...)`: maximal runs of
`[a-z0-9]` characters (`cur` is the current run, reversed). -/
def tokSplit : List Char → List Char → List String
  | [], cur => if cur.isEmpty then [] else [String.mk cur.reverse]
  | c :: cs, cur =>
    if isTokChar c then tokSplit cs (c :: cur)
    else if cur.isEmpty then tokSplit cs []
    else String.mk cur.reverse :: tokSplit cs []

/-- `_tokenize(text)`: `re.findall(r"[a-z0-9]+", text.lower())`. -/
def tokenize (text : String) : List String := tokSplit text.toLower.toList []

/-- Document frequency of a term across the task+corpus documents. -/
def dfCount (allDocs : List (List String)) (t : String) : Nat :=
  (allDocs.filter (fun toks => toks.contains t)).length

/-- The `tfidf(tokens)` closure of `_build_tfidf_vectors`: term frequency
times IDF, one entry per distinct token. -/
def tfidfVec (idf : String → Rat) (tokens : List String) : List (String × Rat) :=
  tokens.dedup.map (fun t =>
    (t, ((tokens.count t : Rat) / (tokens.length : Rat)) * idf t))

/-- `_build_tfidf_vectors(task, docs)`: Laplace-smoothed IDF
(`log((n+1)/(df+1)) + 1`) over task+docs, then TF-IDF vectors; empty token
lists get empty vectors. `math.log` is the oracle `logFn`. -/
def build_tfidf_vectors (logFn : Rat → Rat) (task : String) (docs : List String) :
    List (String × Rat) × List (List (String × Rat)) :=
  let taskTokens := tokenize task
  let docTokens := docs.map tokenize
  let allDocs := taskTokens :: docTokens
  let n := allDocs.length
  let idf : String → Rat := fun t =>
    let d := dfCount allDocs t
    -- `idf.get(t, 0.0)`: terms outside the corpus default to 0
    if d = 0 then 0 else logFn (((n : Rat) + 1) / ((d : Rat) + 1)) + 1
  let taskVec := if taskTokens.isEmpty then [] else tfidfVec idf taskTokens
  let docVecs := docTokens.map (fun toks => if toks.isEmpty then [] else tfidfVec idf toks)
  (taskVec, docVecs)

/-- `max(0.0, min(1.0, x))`. -/
def clamp01 (x : Rat) : Rat := max 0 (min 1 x)

/-- `_cosine(a, b)`: cosine similarity of two sparse vectors, clamped to
[0,1]; 0 when either vector is empty or has zero norm. `math.sqrt` is the
oracle `sqrtFn`. -/
def cosine (sqrtFn : Rat → Rat) (a b : List (String × Rat)) : Rat :=
  if a.isEmpty || b.isEmpty then 0
  else
    let dot := (a.map (fun kv =>
      match b.lookup kv.1 with
      | some w => kv.2 * w
      | none => 0)).sum
    let normA := sqrtFn ((a.map (fun kv => kv.2 * kv.2)).sum)
    let normB := sqrtFn ((b.map (fun kv => kv.2 * kv.2)).sum)
    if normA = 0 || normB = 0 then 0
    else clamp01 (dot / (normA * normB))

/-- `_norm_capabilities(caps)`: the set of stripped, lowercased, non-blank
capability strings, modelled as a deduplicated list. -/
def norm_capabilities (caps : List String) : List String :=
  ((caps.filter (fun c => c != "" && c.trim != "")).map (fun c => c.trim.toLower)).dedup

/-- `_capability_match(required, app_caps)`: coverage of required
capabilities; 1.0 when nothing was required. -/
def capability_match (required app_caps : List String) : Rat :=
  if required.isEmpty then 1
  else ((required.filter (fun c => app_caps.contains c)).length : Rat) / (required.length : Rat)

/-- `_latency_score(lat_ms, max_ms)`. A `none` result is the uncaught
`ZeroDivisionError` the source raises when `max_ms == 1` (the linear ramp
divides by `max_ms - 1`). -/
def latency_score (lat_ms : Int) (max_ms : Option Int) : Option Rat :=
  let lat : Int := max 1 lat_ms
  match max_ms with
  | some m =>
    if 0 < m then
      if m = 1 then none
      else some (clamp01 (1 - ((lat : Rat) - 1) / ((m : Rat) - 1)))
    else some (1 / (1 + (lat : Rat) / 500))
  | none => some (1 / (1 + (lat : Rat) / 500))

/-- `_cost_score(cost, max_cost)`. -/
def cost_score (cost : Rat) (max_cost : Option Rat) : Rat :=
  let cost := max 0 cost
  match max_cost with
  | some m =>
    if m = 0 then (if cost = 0 then 1 else 0)
    else clamp01 (1 - cost / m)
  | none => 1 / (1 + cost)

/-- The hard filters of `recommend` (freshness, citations, latency, cost):
`true` iff the candidate survives all four. -/
def hardPass (cs : Constraints) (a : AppDict) : Bool :=
  (match cs.freshness with
    | some f => a.freshness == f
    | none => true) &&
  (!cs.citations_required || a.citations_supported) &&
  (match cs.max_latency_ms with
    | some m => a.latency_est_ms ≤ m
    | none => true) &&
  (match cs.max_cost_usd with
    | some m => a.cost_est_usd ≤ m
    | none => true)

/-- The trust clamp of `recommend`: `a.get("trust_score")` of `None`
defaults to 0.5, otherwise clamped to [0,1]. -/
def trustOf (t : Option Rat) : Rat :=
  match t with
  | none => 1/2
  | some v => clamp01 v

/-- The document joined for relevance scoring:
`f"{name} {desc} {caps}".strip()`. -/
def docOf (a : AppDict) : String :=
  (a.name ++ " " ++ a.description ++ " " ++ String.intercalate " " a.capabilities).trim

/-- The 3–5 line "why" explanation built per scored candidate. -/
def whyLines (required app_caps : List String) (cs : Constraints)
    (cap trust rel : Rat) (a : AppDict) : List String :=
  let why : List String :=
    if required.isEmpty then
      ["No required_capabilities specified; not penalized on capability coverage."]
    else
      let covers := (required.filter (fun c => app_caps.contains c)).insertionSort (· ≤ ·)
      let missing := (required.filter (fun c => !app_caps.contains c)).insertionSort (· ≤ ·)
      let base := ["Capability match: " ++ fmt2 cap ++ " (covers " ++ pyStrListRepr covers ++ ")"]
      if missing.isEmpty then base else base ++ ["Missing: " ++ pyStrListRepr missing]
  let why := match cs.freshness with
    | some _ => why ++ ["Freshness matches requirement: " ++ a.freshness]
    | none => why
  let why := if cs.citations_required then why ++ ["Supports citations/provenance: yes"] else why
  let why := if 0 < W_TRUST then why ++ ["Trust score: " ++ fmt2 trust] else why
  let why := if 0 < W_REL then why ++ ["Relevance score: " ++ fmt2 rel] else why
  let why := why ++ ["Estimated latency: " ++ toString a.latency_est_ms ++ "ms"]
  why ++ ["Estimated cost: $" ++ fmt4 a.cost_est_usd]

/-- The per-candidate body of `recommend`'s scoring loop. Outer `none` is
the uncaught `ZeroDivisionError` from `_latency_score`; inner `none` means
the candidate was dropped by a soft threshold (`continue`). -/
def scoreOne (cs : Constraints) (required : List String) (a : AppDict) (rel : Rat) :
    Option (Option (Rat × AppDict × List String)) :=
  let app_caps := norm_capabilities a.capabilities
  let cap := capability_match required app_caps
  match latency_score a.latency_est_ms cs.max_latency_ms with
  | none => none
  | some lat =>
    let cost := cost_score a.cost_est_usd cs.max_cost_usd
    if !required.isEmpty && cap < MIN_CAP_COVERAGE then some none
    else if rel < MIN_RELEVANCE_SCORE then some none
    else
      let trust := trustOf a.trust_score
      let total_weight := W_CAP + W_LAT + W_COST + W_TRUST + W_REL
      let total_weight := if total_weight ≤ 0 then 1 else total_weight
      let score := (W_CAP * cap + W_LAT * lat + W_COST * cost + W_TRUST * trust + W_REL * rel)
        / total_weight
      some (some (score, a, whyLines required app_caps cs cap trust rel a))

/-- The scoring loop of `recommend` over the filtered candidates, zipped
by index with the relevance scores (`relevance_scores[idx] if idx < len
else 0.0`). -/
def scoreList (cs : Constraints) (required : List String) :
    List AppDict → List Rat → Option (List (Rat × AppDict × List String))
  | [], _ => some []
  | a :: rest, rels =>
    match scoreOne cs required a (rels.headD 0) with
    | none => none
    | some none => scoreList cs required rest rels.tail
    | some (some entry) => (scoreList cs required rest rels.tail).map (entry :: ·)

/-- `Recommendation(...)` built from one scored entry: id, name, score
rounded to 3 digits, first 5 why lines, trust passthrough. -/
def mkRec (entry : Rat × AppDict × List String) : Recommendation :=
  { app_id := entry.2.1.id
    name := entry.2.1.name
    score := pyRound entry.1 3
    why := entry.2.2.take 5
    trust_score := entry.2.1.trust_score }

/-- `recommend(req, apps, k)` from `router.py`: hard filters, TF-IDF
relevance, weighted scoring with soft thresholds, stable descending sort,
minimum-total-score bar, top-k. A `none` result is an uncaught
`ZeroDivisionError` (propagated from `_latency_score`). -/
def recommend (sqrtFn logFn : Rat → Rat) (req : ShopRequest) (apps : List AppDict)
    (k : Nat) : Option (List Recommendation × List String) :=
  let required := norm_capabilities req.required_capabilities
  let cs := req.constraints
  let filtered := apps.filter (hardPass cs)
  if filtered.isEmpty then some ([], [])
  else
    let docs := filtered.map docOf
    let vecs := build_tfidf_vectors logFn req.task docs
    let relScores := vecs.2.map (cosine sqrtFn vecs.1)
    match scoreList cs required filtered relScores with
    | none => none
    | some scored =>
      if scored.isEmpty then
        if !required.isEmpty then
          some ([], ["No apps met minimum capability coverage (" ++ fmt2 MIN_CAP_COVERAGE ++ ")."])
        else
          some ([], ["No apps met minimum relevance score (" ++ fmt2 MIN_RELEVANCE_SCORE ++ ")."])
      else
        let sortedScored := scored.mergeSort (fun x y => decide (y.1 ≤ x.1))
        match sortedScored with
        | [] => some ([], [])
        | top :: _ =>
          if top.1 < MIN_TOTAL_SCORE then
            some ([], ["Top score " ++ fmt2 top.1 ++ " below minimum " ++ fmt2 MIN_TOTAL_SCORE ++ "."])
          else
            some ((sortedScored.take k).map mkRec, [])

/-! ## Trust aggregation (`apps/api/main.py`) -/

/-- One stored `Run` row, with the fields `_trust_scores_by_app` reads. -/
structure RunRec where
  app_id : String
  ok : Bool
  require_citations : Bool
  latency_ms : Option Int
  created_at : String
deriving DecidableEq, Repr

/-- `TrustOut` from `core/models.py`. -/
structure TrustOut where
  app_id : String
  total_runs : Nat
  success_rate : Rat
  citation_pass_rate : Rat
  avg_latency_ms : Option Int := none
  p95_latency_ms : Option Int := none
  last_run_at : Option String := none
  trust_score : Rat
  insufficient_data : Bool := false
deriving DecidableEq, Repr

/-- Round a rational to the nearest integer, half to even (Python
`round(float)`; exact binary-float ties are modelled by exact decimal
ties). -/
def ratRoundHalfEven (q : Rat) : Int :=
  let f := Int.floor q
  let frac := q - (f : Rat)
  if frac < 1/2 then f
  else if 1/2 < frac then f + 1
  else if f % 2 = 0 then f else f + 1

/-- `_p95(values)`: the `round(0.95*(n-1))`-th element of the ascending
sort (the index is always in range, so the `getD 0` default is never
taken). -/
def p95 (values : List Int) : Option Int :=
  if values.isEmpty then none
  else
    let sorted := values.mergeSort (fun a b => decide (a ≤ b))
    let idx : Nat := (max 0 (ratRoundHalfEven (19 * ((values.length : Rat) - 1) / 20))).toNat
    some (sorted.getD idx 0)

/-- Python `int(x)` on a rational: truncation toward zero. -/
def pyInt (q : Rat) : Int := q.num / (q.den : Int)

/-- The `TrustOut` computed by `_trust_scores_by_app` for one app's
(non-empty) run list. -/
def trustOutOfRuns (app_id : String) (runs : List RunRec) : TrustOut :=
  let total := runs.length
  let ok_count := (runs.filter (·.ok)).length
  let success_rate : Rat := if total = 0 then 0 else (ok_count : Rat) / (total : Rat)
  let require_cite := runs.filter (·.require_citations)
  let cite_ok := require_cite.filter (·.ok)
  let citation_pass_rate : Rat :=
    if require_cite.isEmpty then success_rate
    else (cite_ok.length : Rat) / (require_cite.length : Rat)
  let latencies : List Int := runs.filterMap (·.latency_ms)
  let avg_latency : Option Int :=
    if latencies.isEmpty then none
    else some (pyInt (((latencies.sum : Int) : Rat) / (latencies.length : Rat)))
  let p95_latency := p95 latencies
  let last_run_at := (runs.map (·.created_at)).max?
  -- `_latency_score(avg_latency or 1, None) if avg_latency else 0.5`:
  -- with no max the soft curve always returns a value, hence `getD 0`
  -- is never taken
  let lscore : Rat :=
    match avg_latency with
    | some v => if v ≠ 0 then (latency_score v none).getD 0 else 1/2
    | none => 1/2
  let trust_raw : Rat := (1/2) * success_rate + (3/10) * citation_pass_rate + (1/5) * lscore
  let insufficient := total = 0
  { app_id := app_id
    total_runs := total
    success_rate := pyRound success_rate 4
    citation_pass_rate := pyRound citation_pass_rate 4
    avg_latency_ms := avg_latency
    p95_latency_ms := p95_latency
    last_run_at := last_run_at
    trust_score := if insufficient then 1/2 else pyRound trust_raw 4
    insufficient_data := insufficient }

/-- `_trust_scores_by_app(db)`: group all runs by app id and compute one
`TrustOut` per app that has at least one run (apps with zero runs have no
entry). -/
def trust_scores_by_app (runs : List RunRec) : List (String × TrustOut) :=
  ((runs.map (·.app_id)).dedup).map
    (fun id => (id, trustOutOfRuns id (runs.filter (fun r => r.app_id == id))))

/-- The `/apps/{app_id}/trust` endpoint `app_trust`: the grouped score
when the app has runs, the neutral `trust_score=0.5, insufficient_data`
snapshot when the app exists with zero runs, 404 otherwise. -/
def app_trust (runs : List RunRec) (catalog : List String) (app_id : String) :
    Except Nat TrustOut :=
  match (trust_scores_by_app runs).lookup app_id with
  | some t => .ok t
  | none =>
    if catalog.contains app_id then
      .ok { app_id := app_id
            total_runs := 0
            success_rate := 0
            citation_pass_rate := 0
            avg_latency_ms := none
            p95_latency_ms := none
            last_run_at := none
            trust_score := 1/2
            insufficient_data := true }
    else .error 404

/-! ## `src/marketplace/llm/sales_agent.py` -/

/-- One candidate dict passed to the sales agent (built by the shop
endpoint; `.get` of a missing key is `none`). -/
structure SalesCandidate where
  app_id : Option String := none
  name : Option String := none
  capabilities : List String := []
  freshness : Option String := none
  citations_supported : Bool := false
  latency_est_ms : Option Int := none
  cost_est_usd : Option Rat := none
deriving DecidableEq, Repr

/-- `c.get("app_id")` under Python truthiness: a non-empty string. -/
def truthyId (c : SalesCandidate) : Option String :=
  match c.app_id with
  | some s => if s = "" then none else some s
  | none => none

/-- `valid_ids = {c.get("app_id") for c in candidates if c.get("app_id")}`,
modelled as a deduplicated list. -/
def validIds (candidates : List SalesCandidate) : List String :=
  (candidates.filterMap truthyId).dedup

/-- `_normalize_label(value)`: lowercase, strip every character outside
`[a-z0-9]`. -/
def normalizeLabel (value : String) : String :=
  String.mk (value.toLower.toList.filter (fun c => isTokChar c))

/-- One step of the `name_map`/`collisions` construction loop. -/
def nameMapStep (st : List (String × String) × List String) (c : SalesCandidate) :
    List (String × String) × List String :=
  match c.name, c.app_id with
  | some nm, some app_id =>
    let key := normalizeLabel nm
    if key = "" then st
    else
      match st.1.lookup key with
      | some v => if v ≠ app_id then (st.1, st.2 ++ [key]) else st
      | none => (st.1 ++ [(key, app_id)], st.2)
  | _, _ => st

/-- The normalized-display-name → app-id lookup table of
`_parse_sales_payload`, with colliding keys removed. -/
def nameMap (candidates : List SalesCandidate) : List (String × String) :=
  let st := candidates.foldl nameMapStep ([], [])
  st.1.filter (fun kv => !st.2.contains kv.1)

/-- `sizeOf` bound for values stored in a JSON object, used for the
termination of `coerceChoice`. -/
theorem jsonGet_sizeOf {kvs : List (String × Json)} {k : String} {v : Json}
    (h : jsonGet kvs k = some v) : sizeOf v < sizeOf (Json.obj kvs) := by
  induction kvs with
  | nil => simp [jsonGet] at h
  | cons kv rest ih =>
    obtain ⟨k0, v0⟩ := kv
    rw [jsonGet] at h
    split at h
    · cases h
      simp
      omega
    · have := ih h
      simp at this ⊢
      omega

/-- `_coerce_choice(value)`: unwrap a `final_choice`/`app_id` given as a
nested object (via `app_id`/`id`/`name` keys or a singleton dict) or a
singleton list; `Json.null` doubles as Python `None`. -/
def coerceChoice : Json → Json
  | .str s => .str s
  | .obj kvs =>
    match h1 : jsonGet kvs "app_id" with
    | some v => coerceChoice v
    | none =>
      match h2 : jsonGet kvs "id" with
      | some v => coerceChoice v
      | none =>
        match h3 : jsonGet kvs "name" with
        | some v => coerceChoice v
        | none =>
          match kvs with
          | [(k1, v1)] => coerceChoice v1
          | _ => .null
  | .arr xs =>
    match xs with
    | [x] => coerceChoice x
    | _ => .null
  | v => v
termination_by j => sizeOf j
decreasing_by
  · exact jsonGet_sizeOf h1
  · exact jsonGet_sizeOf h2
  · exact jsonGet_sizeOf h3
  · simp
    omega
  · simp
    omega

/-- `_resolve_app_id(value, valid_ids, name_map)`: exact id match,
case-insensitive match, unambiguous substring containment, or unambiguous
normalized-name lookup. -/
def resolveAppId (value : Json) (valid_ids : List String)
    (nm : List (String × String)) : Option String :=
  match value with
  | .str s =>
    let c := s.trim
    if c = "" then none
    else if valid_ids.contains c then some c
    else
      let lowered := c.toLower
      if valid_ids.contains lowered then some lowered
      else
        match valid_ids.filter (fun vid => strContains lowered vid) with
        | [m] => some m
        | _ => nm.lookup (normalizeLabel c)
  | _ => none

/-- One parsed sales recommendation (also `SalesAgentRecommendation` from
`core/models.py`). -/
structure ParsedRec where
  app_id : String
  rationale : String
  tradeoff : String
deriving DecidableEq, Repr

/-- The dict returned by `_parse_sales_payload` /
`sales_recommendation`. -/
structure SalesResult where
  summary : String
  final_choice : String
  recommendations : List ParsedRec
deriving DecidableEq, Repr

/-- `candidate_map.get(app_id, {})`: Python dict comprehension keyed by
truthy app id, later entries overwriting earlier ones. -/
def candidateMapGet (candidates : List SalesCandidate) (app_id : String) :
    SalesCandidate :=
  ((candidates.reverse).find? (fun c => truthyId c == some app_id)).getD {}

/-- The deterministic rationale backfill for a resolved recommendation
whose model-provided rationale was blank. -/
def backfillRationale (cand : SalesCandidate) : Option String :=
  let bits : List String :=
    (if cand.capabilities.isEmpty then []
     else ["Capabilities: " ++ String.intercalate ", " cand.capabilities])
    ++ (match cand.freshness with
        | some f => if f = "" then [] else ["Freshness: " ++ f]
        | none => [])
    ++ (if cand.citations_supported then ["Supports citations"] else [])
  if bits.isEmpty then none else some (String.intercalate "; " bits)

/-- The deterministic tradeoff backfill (latency/cost attributes). -/
def backfillTradeoff (cand : SalesCandidate) : Option String :=
  let bits : List String :=
    (match cand.latency_est_ms with
     | some l => ["Estimated latency: " ++ toString l ++ "ms"]
     | none => [])
    ++ (match cand.cost_est_usd with
        | some q => ["Estimated cost: $" ++ fmt4 q]
        | none => [])
  if bits.isEmpty then none else some (String.intercalate "; " bits)

/-- `rationale` (or `tradeoff`) as the loop leaves it: the model's string
if non-blank, else the backfill. -/
def fieldOrBackfill (v : Json) (backfill : Option String) : Option String :=
  match v with
  | .str s => if s.trim = "" then backfill else some s
  | _ => backfill

/-- The recommendation-parsing loop of `_parse_sales_payload`: resolve
each entry's app id, reject duplicates, backfill blank rationale/tradeoff
text, and accumulate the parsed entries together with the `seen` id set. -/
def parseRecs (candidates : List SalesCandidate) (valid_ids : List String)
    (nm : List (String × String)) :
    List Json → List String → List ParsedRec → Except String (List ParsedRec × List String)
  | [], seen, acc => .ok (acc, seen)
  | rec :: rest, seen, acc =>
    match rec with
    | .obj kvs =>
      match resolveAppId (coerceChoice (jsonGetD kvs "app_id")) valid_ids nm with
      | none => .error "sales_agent_invalid_app_id"
      | some resolved =>
        if seen.contains resolved then .error "sales_agent_duplicate_app_id"
        else
          let cand := candidateMapGet candidates resolved
          match fieldOrBackfill (jsonGetD kvs "rationale") (backfillRationale cand) with
          | none => .error "sales_agent_invalid_rationale"
          | some rationale =>
            if rationale.trim = "" then .error "sales_agent_invalid_rationale"
            else
              match fieldOrBackfill (jsonGetD kvs "tradeoff") (backfillTradeoff cand) with
              | none => .error "sales_agent_invalid_tradeoff"
              | some tradeoff =>
                if tradeoff.trim = "" then .error "sales_agent_invalid_tradeoff"
                else
                  parseRecs candidates valid_ids nm rest (seen ++ [resolved])
                    (acc ++ [{ app_id := resolved
                               rationale := rationale.trim
                               tradeoff := tradeoff.trim }])
    | _ => .error "sales_agent_invalid_recommendation_entry"

/-- The coerced, non-blank `final_choice` string of a sales payload
(`None` after the `isinstance`/blank check otherwise). -/
def salesFinalChoice (payload : List (String × Json)) : Option String :=
  match coerceChoice (jsonGetD payload "final_choice") with
  | .str s => if s.trim = "" then none else some s
  | _ => none

/-- `resolved_final = _resolve_app_id(final_choice, valid_ids, name_map)`
(with the `isinstance(value, str)` guard absorbing the `None` case). -/
def resolvedFinalOf (payload : List (String × Json)) (candidates : List SalesCandidate) :
    Option String :=
  match salesFinalChoice payload with
  | some f => resolveAppId (.str f) (validIds candidates) (nameMap candidates)
  | none => none

/-- `if resolved_final is None or resolved_final not in seen:
resolved_final = parsed_recs[0]["app_id"]`. -/
def resolveFinal (resolved_final : Option String) (seen : List String) (first : String) :
    String :=
  match resolved_final with
  | some f => if seen.contains f then f else first
  | none => first

/-- `_parse_sales_payload(payload, candidates)` from `sales_agent.py`:
validate the summary, coerce the final choice, enforce the `NO_MATCH` /
1–3-recommendations invariants, resolve ids against the candidate set,
and auto-correct an unresolved or absent final choice to the first
recommendation. `.error` carries the `SalesAgentError` message. -/
def parse_sales_payload (payload : List (String × Json))
    (candidates : List SalesCandidate) : Except String SalesResult :=
  match jsonGetD payload "summary" with
  | .str summary =>
    if summary.trim = "" then .error "sales_agent_invalid_summary"
    else
      let final_choice : Option String := salesFinalChoice payload
      match jsonGetD payload "recommendations" with
      | .arr recs =>
        let valid := validIds candidates
        let nm := nameMap candidates
        if final_choice = some "NO_MATCH" then
          if !recs.isEmpty then .error "sales_agent_no_match_with_recommendations"
          else .ok { summary := summary.trim
                     final_choice := "NO_MATCH"
                     recommendations := [] }
        else if recs.isEmpty then .error "sales_agent_missing_recommendations"
        else if recs.length > 3 then .error "sales_agent_too_many_recommendations"
        else
          match parseRecs candidates valid nm recs [] [] with
          | .error e => .error e
          | .ok (parsed, seen) =>
            match parsed with
            | [] => .error "sales_agent_missing_recommendations"
            | p :: _ =>
              .ok { summary := summary.trim
                    final_choice := resolveFinal (resolvedFinalOf payload candidates) seen p.app_id
                    recommendations := parsed }
      | _ => .error "sales_agent_invalid_recommendations"
  | _ => .error "sales_agent_invalid_summary"

/-! ## The `/shop` endpoint (`apps/api/main.py`)

The endpoint's routing call expects the extended router interface
(`recommend(req, apps, k, semantic_search_engine=...)` returning a metrics
triple) whereas `core/router.py` exposes the two-tuple `recommend`; the
router outcome is therefore taken here as an explicit input
`(recs, router_expl)`, and the sales-agent call as an
`Except String SalesResult` (`.error` = `SalesAgentError` with `str(e)`).
Database logging and response caching are side effects that do not affect
the returned value and are not modelled; `metrics` is not a field of the
pydantic `ShopResponse` (extra kwargs are ignored) and is dropped. -/

/-- `SalesAgentMessage` from `core/models.py`. -/
structure SalesAgentMessage where
  summary : String
  final_choice : String
  recommendations : List ParsedRec := []
deriving DecidableEq, Repr

/-- `ShopResponse` from `core/models.py`. -/
structure ShopResponse where
  status : String
  recommendations : List Recommendation := []
  explanation : List String := []
  sales_agent : Option SalesAgentMessage := none
deriving DecidableEq, Repr

/-- `SALES_AGENT_TOP_K` default from `settings.py`. -/
def SALES_AGENT_TOP_K : Nat := 8

/-- Python truthiness of an optional string (`None` and `""` falsy). -/
def truthyStr (s : Option String) : Bool :=
  match s with
  | some v => v != ""
  | none => false

/-- `sales_order.get(app_id)`: position of an app id in the sales
recommendations (later duplicates overwrite, i.e. the last index wins). -/
def salesOrderGet (salesRecs : List ParsedRec) (app_id : String) : Option Nat :=
  ((salesRecs.enum.reverse).find? (fun p => p.2.app_id == app_id)).map (·.1)

/-- `sales_details.get(app_id)` (later duplicates overwrite). -/
def salesDetailsGet (salesRecs : List ParsedRec) (app_id : String) : Option ParsedRec :=
  (salesRecs.reverse).find? (fun d => d.app_id == app_id)

/-- The per-recommendation enrichment loop of the shop endpoint: copy the
sales agent's rationale/tradeoff onto the router recommendation, else
synthesize them from the "why" lines. -/
def enrichOne (salesRecs : List ParsedRec) (r : Recommendation) : Recommendation :=
  let r :=
    match salesDetailsGet salesRecs r.app_id with
    | some d => { r with rationale := some d.rationale, tradeoff := some d.tradeoff }
    | none => r
  if !truthyStr r.rationale || !truthyStr r.tradeoff then
    let rationale_bits := r.why.filter (fun line =>
      line.startsWith "Capability match" || line.startsWith "Freshness matches" ||
        line.startsWith "Supports citations")
    let tradeoff_bits := r.why.filter (fun line =>
      line.startsWith "Estimated latency" || line.startsWith "Estimated cost")
    let r :=
      if !truthyStr r.rationale && !rationale_bits.isEmpty then
        { r with rationale := some (String.intercalate "; " rationale_bits) }
      else r
    let r :=
      if !truthyStr r.tradeoff && !tradeoff_bits.isEmpty then
        { r with tradeoff := some (String.intercalate "; " tradeoff_bits) }
      else r
    r
  else r

/-- Python tuple comparison `(a1, a2) <= (b1, b2)` (lexicographic). -/
def pairLe (a b : Nat × Nat) : Bool :=
  a.1 < b.1 || (a.1 == b.1 && a.2 ≤ b.2)

/-- The sort key `(0, sales_order[app_id])` / `(1, 0)` of the final
recommendation ordering. -/
def shopSortKey (salesRecs : List ParsedRec) (r : Recommendation) : Nat × Nat :=
  match salesOrderGet salesRecs r.app_id with
  | some i => (0, i)
  | none => (1, 0)

/-- The `/shop` endpoint from the router call onward (cache-miss path):
empty router result → `NO_MATCH` with the router's first reason;
`SalesAgentError` → safe `NO_MATCH` carrying the failure reason;
`NO_MATCH` sales verdict → `NO_MATCH`; otherwise the enriched, reordered
`OK` response. -/
def shopAfterRouting (recs : List Recommendation) (router_expl : List String)
    (salesOutcome : Except String SalesResult) : ShopResponse :=
  if recs.isEmpty then
    let message :=
      match router_expl with
      | m :: _ => m
      | [] => "No suitable products matched strict routing thresholds."
    { status := "NO_MATCH"
      recommendations := []
      explanation := [message]
      sales_agent := some { summary := message, final_choice := "NO_MATCH", recommendations := [] } }
  else
    match salesOutcome with
    | .error e =>
      let summary := "Sales agent failed: " ++ e ++ ". Returning NO_MATCH to avoid unsafe selection."
      { status := "NO_MATCH"
        recommendations := []
        explanation := [summary]
        sales_agent := some { summary := summary, final_choice := "NO_MATCH", recommendations := [] } }
    | .ok sales =>
      if sales.final_choice = "NO_MATCH" then
        { status := "NO_MATCH"
          recommendations := []
          explanation := [sales.summary]
          sales_agent := some { summary := sales.summary, final_choice := "NO_MATCH", recommendations := [] } }
      else
        let recs_enriched := recs.map (enrichOne sales.recommendations)
        let recs_sorted :=
          (recs_enriched.take (max 1 SALES_AGENT_TOP_K)).mergeSort
            (fun a b => pairLe (shopSortKey sales.recommendations a) (shopSortKey sales.recommendations b))
        { status := "OK"
          recommendations := recs_sorted
          explanation := [sales.summary]
          sales_agent := some { summary := sales.summary
                                final_choice := sales.final_choice
                                recommendations := sales.recommendations } }

/-! ## Concrete fixtures used by witnesses and counterexamples -/

/-- A trivial stand-in for the `math.sqrt` oracle. -/
def sqrtOne : Rat → Rat := fun _ => 1

/-- A trivial stand-in for the `math.log` oracle. -/
def logZero : Rat → Rat := fun _ => 0

/-- A candidate app used by the router witnesses. -/
def appWeather : AppDict where
  id := "w"
  name := "weather"
  description := "weather"
  capabilities := ["weather"]
  freshness := "static"
  citations_supported := true
  latency_est_ms := 1
  cost_est_usd := 0

/-- A request with no required capabilities and no constraints. -/
def reqWeather : ShopRequest where
  task := "weather"
  constraints := { citations_required := false }

/-- A candidate whose estimated latency equals a `max_latency_ms` of 1. -/
def appLat1 : AppDict where
  id := "l"
  name := "n"
  description := "d"
  capabilities := []
  freshness := "static"
  citations_supported := true
  latency_est_ms := 1
  cost_est_usd := 0

/-- A request whose constraints set `max_latency_ms = 1` (the smallest
value pydantic admits). -/
def reqLat1 : ShopRequest where
  task := "t"
  constraints := { citations_required := false, max_latency_ms := some 1 }

/-- A candidate that does not support citations. -/
def appNoCite : AppDict where
  id := "nc"
  name := "n"
  description := "d"
  capabilities := []
  freshness := "static"
  citations_supported := false
  latency_est_ms := 5
  cost_est_usd := 0

/-- A request that requires citations (so `appNoCite` is hard-filtered). -/
def reqCite : ShopRequest where
  task := "t"
  constraints := { citations_required := true }

/-- A request requiring a capability `appWeather` does not offer. -/
def reqFinance : ShopRequest where
  task := "weather"
  required_capabilities := ["finance"]
  constraints := { citations_required := false }

/-- A sales candidate whose app id is the literal sentinel string. -/
def candNoMatch : SalesCandidate where
  app_id := some "NO_MATCH"
  name := some "No Match"

/-- A payload whose final choice resolves to the `candNoMatch` candidate
through the normalized-name table while evading the literal `NO_MATCH`
early return. -/
def payloadNoMatch : List (String × Json) :=
  [("summary", .str "s"), ("final_choice", .str "no_match"),
   ("recommendations", .arr [.obj [("app_id", .str "NO_MATCH"),
                                   ("rationale", .str "r"),
                                   ("tradeoff", .str "t")]])]

/-- An ordinary sales candidate. -/
def candOne : SalesCandidate where
  app_id := some "app1"
  name := some "App One"
  capabilities := ["weather"]
  freshness := some "realtime"
  citations_supported := true
  latency_est_ms := some 800
  cost_est_usd := some 0

/-- A payload with a hallucinated final choice and a bare recommendation
(rationale and tradeoff must be backfilled). -/
def payloadOne : List (String × Json) :=
  [("summary", .str "pick app1"), ("final_choice", .str "bogus"),
   ("recommendations", .arr [.obj [("app_id", .str "app1")]])]

/-- A stored run belonging to a different app than the one queried. -/
def runOther : RunRec where
  app_id := "other"
  ok := true
  require_citations := false
  latency_ms := some 100
  created_at := "2026-01-01T00:00:00"

/-- A router recommendation used to exercise the shop endpoint. -/
def recOne : Recommendation where
  app_id := "a"
  name := "n"
  score := 1

/-! ## Theorems -/

/-- C10: for every dict payload, `validate_output` with
`require_citations=False` returns the empty error list (the validator
enforces nothing when citations are not required); for every non-dict
payload it returns exactly the single error
"Provider output must be a JSON object.", for either flag. -/
theorem validate_output_contract :
    (∀ kvs : List (String × Json), validate_output (.obj kvs) false = []) ∧
    (∀ (p : Json) (b : Bool), (∀ kvs, p ≠ Json.obj kvs) →
      validate_output p b = ["Provider output must be a JSON object."]) := by
  constructor
  · intro kvs
    simp [validate_output]
  · intro p b h
    cases p with
    | obj kvs => exact absurd rfl (h kvs)
    | null => rfl
    | bool b => rfl
    | num q => rfl
    | str s => rfl
    | arr xs => rfl

/-- Witness for C10 at a concrete dict and a concrete non-dict payload. -/
theorem validate_output_contract_witness :
    validate_output (.obj [("answer", .str "42")]) false = [] ∧
    validate_output (.str "plain text") true = ["Provider output must be a JSON object."] :=
  ⟨validate_output_contract.1 [("answer", .str "42")],
   validate_output_contract.2 (.str "plain text") true (fun _ h => nomatch h)⟩

/-- C9 counterexample: an unreachable backend and a timed-out request
raise the *same* exception kind — both are `OllamaConnectionError` — so
the connectivity error kind is not distinct from the timeout kind. -/
theorem ollama_same_kind_counterexample :
    ∃ e1 e2 : PyError, ollama_generate .connError = .error e1 ∧
      ollama_generate .timeout = .error e2 ∧
      e1.kindName = e2.kindName ∧ e1.kindName = "OllamaConnectionError" :=
  ⟨_, _, rfl, rfl, rfl, rfl⟩

/-- C9 (amended): both failure modes raise the single typed error
`OllamaConnectionError`; the two carry distinct messages, the
connectivity one saying it cannot connect and the timeout one that the
request timed out. -/
theorem ollama_error_kinds_and_messages :
    ∃ mc mt : String,
      ollama_generate .connError = .error (.ollamaConnectionError mc) ∧
      ollama_generate .timeout = .error (.ollamaConnectionError mt) ∧
      mc ≠ mt ∧
      strContains mc "Cannot connect" = true ∧
      strContains mt "timed out" = true :=
  ⟨_, _, rfl, rfl, by decide, by decide, by decide⟩

/-- C3: the claim's property fails on the code at `max_latency_ms = 1`
(valid per the pydantic bound `ge=1`): `_latency_score` evaluates
`(lat_ms - 1) / (max_ms - 1)` and divides by zero, so the latency score
of a surviving candidate (latency 1 passes the hard filter) is undefined
and `recommend` raises `ZeroDivisionError` instead of returning scores in
[0,1] — contradicting the function's own docstring "Score in [0,1]". -/
theorem latency_score_division_by_zero :
    latency_score 1 (some 1) = none ∧
    recommend sqrtOne logZero reqLat1 [appLat1] 3 = none :=
  ⟨rfl, rfl⟩

/-- C6: for an app identifier with zero stored runs, whenever `app_trust`
produces a snapshot it is the neutral one: `trust_score = 0.5` and
`insufficient_data = true` (never a trust score of 0). -/
theorem trust_zero_runs_neutral (runs : List RunRec) (catalog : List String)
    (app_id : String) (t : TrustOut)
    (hz : runs.filter (fun r => r.app_id == app_id) = [])
    (hr : app_trust runs catalog app_id = .ok t) :
    t.trust_score = 1/2 ∧ t.insufficient_data = true := by
  have hmem : app_id ∉ (runs.map (·.app_id)).dedup := by
    intro hmem
    rw [List.mem_dedup, List.mem_map] at hmem
    obtain ⟨r, hr0, hr1⟩ := hmem
    have hrf : r ∈ runs.filter (fun r => r.app_id == app_id) := by
      rw [List.mem_filter]
      exact ⟨hr0, by simp [hr1]⟩
    rw [hz] at hrf
    exact absurd hrf (List.not_mem_nil r)
  have hlook : ∀ ids : List String, app_id ∉ ids →
      (ids.map (fun id => (id, trustOutOfRuns id (runs.filter (fun r => r.app_id == id))))).lookup
        app_id = none := by
    intro ids
    induction ids with
    | nil => intro _; rfl
    | cons a l ih =>
      intro hna
      simp only [List.mem_cons, not_or] at hna
      have hne : (app_id == a) = false := by simp [hna.1]
      simp only [List.map_cons, List.lookup, hne]
      exact ih hna.2
  have hlook2 : (trust_scores_by_app runs).lookup app_id = none := by
    unfold trust_scores_by_app
    exact hlook _ hmem
  unfold app_trust at hr
  rw [hlook2] at hr
  by_cases hc : catalog.contains app_id = true
  · rw [if_pos hc] at hr
    cases hr
    exact ⟨rfl, rfl⟩
  · rw [if_neg hc] at hr
    cases hr

/-- Witness for C6: one stored run for a different app, a catalog
containing the queried app. -/
theorem trust_zero_runs_neutral_witness :
    [runOther].filter (fun r => r.app_id == "app1") = [] ∧
    ∃ t, app_trust [runOther] ["app1"] "app1" = .ok t ∧
      t.trust_score = 1/2 ∧ t.insufficient_data = true :=
  ⟨rfl, _, rfl, trust_zero_runs_neutral [runOther] ["app1"] "app1" _ rfl rfl⟩

/-- C5: when the sales agent raises its typed protocol error during a
shop request (with a non-empty routed candidate list), the endpoint
returns a structured response with status `NO_MATCH`, an empty
recommendation list, and a summary containing the underlying failure
reason, instead of propagating the exception. -/
theorem shop_sales_error_safe_no_match (recs : List Recommendation)
    (expl : List String) (e : String) (h : recs ≠ []) :
    (shopAfterRouting recs expl (.error e)).status = "NO_MATCH" ∧
    (shopAfterRouting recs expl (.error e)).recommendations = [] ∧
    (shopAfterRouting recs expl (.error e)).explanation =
      ["Sales agent failed: " ++ e ++ ". Returning NO_MATCH to avoid unsafe selection."] ∧
    ∃ msg, (shopAfterRouting recs expl (.error e)).sales_agent = some msg ∧
      msg.final_choice = "NO_MATCH" ∧ msg.recommendations = [] ∧
      ∃ pre post, msg.summary = pre ++ e ++ post := by
  have hne : recs.isEmpty = false := by
    cases recs with
    | nil => exact absurd rfl h
    | cons a l => rfl
  unfold shopAfterRouting
  rw [hne]
  simp only [Bool.false_eq_true, if_false]
  exact ⟨trivial, trivial, trivial,
    _, rfl, rfl, rfl,
    "Sales agent failed: ", ". Returning NO_MATCH to avoid unsafe selection.", rfl⟩

/-- Witness for C5 at a concrete routed list and failure message. -/
theorem shop_sales_error_safe_no_match_witness :
    ([recOne] : List Recommendation) ≠ [] ∧
    ((shopAfterRouting [recOne] [] (.error "LLM unreachable")).status = "NO_MATCH" ∧
     (shopAfterRouting [recOne] [] (.error "LLM unreachable")).recommendations = [] ∧
     (shopAfterRouting [recOne] [] (.error "LLM unreachable")).explanation =
       ["Sales agent failed: " ++ "LLM unreachable" ++ ". Returning NO_MATCH to avoid unsafe selection."] ∧
     ∃ msg, (shopAfterRouting [recOne] [] (.error "LLM unreachable")).sales_agent = some msg ∧
       msg.final_choice = "NO_MATCH" ∧ msg.recommendations = [] ∧
       ∃ pre post, msg.summary = pre ++ "LLM unreachable" ++ post) :=
  ⟨by simp, shop_sales_error_safe_no_match [recOne] [] "LLM unreachable" (by simp)⟩

/-- Every key of the keyword table is in the allowed vocabulary. -/
theorem domain_keys_allowed : ∀ kw ∈ DOMAIN_KEYWORDS, kw.1 ∈ ALLOWED_CAPS := by decide

/-- "citations" and "realtime" are in the allowed vocabulary. -/
theorem cite_rt_allowed : "citations" ∈ ALLOWED_CAPS ∧ "realtime" ∈ ALLOWED_CAPS := by decide

/-- Elements produced by the keyword fold come from the accumulator or
from the table keys. -/
theorem domainFold_mem {t : String} {l : List (String × List String)} {acc : List String}
    {c : String} (h : c ∈ l.foldl (domainStep t) acc) : c ∈ acc ∨ ∃ kw ∈ l, c = kw.1 := by
  induction l generalizing acc with
  | nil => exact Or.inl h
  | cons kw rest ih =>
    rw [List.foldl_cons] at h
    rcases ih h with hacc | ⟨kw2, hm, he⟩
    · unfold domainStep at hacc
      split at hacc
      · rcases List.mem_append.1 hacc with h1 | h2
        · exact Or.inl h1
        · rw [List.mem_singleton] at h2
          exact Or.inr ⟨kw, List.mem_cons_self kw rest, h2⟩
      · exact Or.inl hacc
    · exact Or.inr ⟨kw2, List.mem_cons_of_mem kw hm, he⟩

/-- The keyword fold only ever appends. -/
theorem domainFold_mono {t : String} {l : List (String × List String)} {acc : List String}
    {c : String} (h : c ∈ acc) : c ∈ l.foldl (domainStep t) acc := by
  induction l generalizing acc with
  | nil => exact h
  | cons kw rest ih =>
    rw [List.foldl_cons]
    apply ih
    unfold domainStep
    split
    · exact List.mem_append_left _ h
    · exact h

/-- The dedupe pass only accumulates allowed capabilities. -/
theorem dedupeFold_allowed {xs : List Json} {acc : List String}
    (hacc : ∀ c ∈ acc, c ∈ ALLOWED_CAPS) :
    ∀ c ∈ xs.foldl dedupeStep acc, c ∈ ALLOWED_CAPS := by
  induction xs generalizing acc with
  | nil => exact hacc
  | cons x rest ih =>
    rw [List.foldl_cons]
    apply ih
    intro c hc
    cases x with
    | str s =>
      simp only [dedupeStep] at hc
      split at hc
      · exact hacc c hc
      · split at hc
        · rcases List.mem_append.1 hc with h1 | h2
          · exact hacc c h1
          · rw [List.mem_singleton] at h2
            subst h2
            rename_i hcond
            simp only [Bool.and_eq_true] at hcond
            simpa using hcond.1
        · exact hacc c hc
    | null => exact hacc c hc
    | bool b => exact hacc c hc
    | num q => exact hacc c hc
    | arr ys => exact hacc c hc
    | obj kvs => exact hacc c hc

/-- Membership after the citations block: already present or the
appended "citations". -/
theorem citeStep_mem {t : String} {f : Bool} {acc : List String} {c : String}
    (h : c ∈ citeStep t f acc) : c ∈ acc ∨ c = "citations" := by
  unfold citeStep at h
  split at h
  · rcases List.mem_append.1 h with h1 | h2
    · exact Or.inl h1
    · exact Or.inr (List.mem_singleton.1 h2)
  · exact Or.inl h

/-- Membership after the realtime block: already present or the appended
"realtime". -/
theorem rtStep_mem {t : String} {acc : List String} {c : String}
    (h : c ∈ rtStep t acc) : c ∈ acc ∨ c = "realtime" := by
  unfold rtStep at h
  split at h
  · rcases List.mem_append.1 h with h1 | h2
    · exact Or.inl h1
    · exact Or.inr (List.mem_singleton.1 h2)
  · exact Or.inl h

/-- The realtime block only ever appends. -/
theorem rtStep_mono {t : String} {acc : List String} {c : String}
    (h : c ∈ acc) : c ∈ rtStep t acc := by
  unfold rtStep
  split
  · exact List.mem_append_left _ h
  · exact h

/-- With `force_citations = true` the citations block guarantees
"citations" in its output. -/
theorem citeStep_cites {t : String} {acc : List String} :
    "citations" ∈ citeStep t true acc := by
  unfold citeStep
  cases hcont : acc.contains "citations" with
  | true =>
    have hm : "citations" ∈ acc := by simpa using hcont
    split
    · exact List.mem_append_left _ hm
    · exact hm
  | false =>
    rw [if_pos (by simp [hcont])]
    exact List.mem_append_right _ (List.mem_singleton.2 rfl)

/-- The augmentation passes keep the result inside the vocabulary and,
when citations are forced, include "citations". -/
theorem augmentCaps_spec (task : String) (force : Bool) (deduped : List String)
    (hd : ∀ c ∈ deduped, c ∈ ALLOWED_CAPS) :
    (∀ c ∈ augmentCaps task force deduped, c ∈ ALLOWED_CAPS) ∧
    (force = true → "citations" ∈ augmentCaps task force deduped) := by
  have h1 : ∀ c ∈ DOMAIN_KEYWORDS.foldl (domainStep task.toLower) deduped, c ∈ ALLOWED_CAPS := by
    intro c hc
    rcases domainFold_mem hc with h | ⟨kw, hm, he⟩
    · exact hd c h
    · subst he
      exact domain_keys_allowed kw hm
  constructor
  · intro c hc
    unfold augmentCaps at hc
    rcases rtStep_mem hc with hc2 | hrt
    · rcases citeStep_mem hc2 with hc3 | hcit
      · exact h1 c hc3
      · subst hcit
        exact cite_rt_allowed.1
    · subst hrt
      exact cite_rt_allowed.2
  · intro hforce
    subst hforce
    unfold augmentCaps
    exact rtStep_mono citeStep_cites

/-- The heuristic extractor stays inside the vocabulary and, when
citations are forced, includes "citations". -/
theorem heuristic_caps_spec (task : String) (force : Bool) :
    (∀ c ∈ heuristic_caps task force, c ∈ ALLOWED_CAPS) ∧
    (force = true → "citations" ∈ heuristic_caps task force) := by
  have h1 : ∀ c ∈ (DOMAIN_KEYWORDS.filter
      (fun cw => anyKeyword task.toLower cw.2)).map (·.1), c ∈ ALLOWED_CAPS := by
    intro c hc
    rw [List.mem_map] at hc
    obtain ⟨kw, hm, he⟩ := hc
    subst he
    exact domain_keys_allowed kw (List.mem_of_mem_filter hm)
  constructor
  · intro c hc
    unfold heuristic_caps at hc
    rcases rtStep_mem hc with hc2 | hrt
    · rcases citeStep_mem hc2 with hc3 | hcit
      · exact h1 c hc3
      · subst hcit
        exact cite_rt_allowed.1
    · subst hrt
      exact cite_rt_allowed.2
  · intro hforce
    subst hforce
    unfold heuristic_caps
    exact rtStep_mono citeStep_cites

/-- Every branch of the LLM-result path satisfies the vocabulary and
forced-citations properties. -/
theorem llmCapsPath_spec (obj : Json) (task : String) (force : Bool) :
    (∀ c ∈ llmCapsPath obj task force, c ∈ ALLOWED_CAPS) ∧
    (force = true → "citations" ∈ llmCapsPath obj task force) := by
  cases obj with
  | obj kvs =>
    simp only [llmCapsPath]
    split
    · rename_i xs hxs
      exact augmentCaps_spec task force (dedupeAllowed xs)
        (fun c hc => dedupeFold_allowed (fun c h => absurd h (List.not_mem_nil c)) c hc)
    · exact heuristic_caps_spec task force
  | null => exact heuristic_caps_spec task force
  | bool b => exact heuristic_caps_spec task force
  | num q => exact heuristic_caps_spec task force
  | str s => exact heuristic_caps_spec task force
  | arr xs => exact heuristic_caps_spec task force

/-- C7: every capability list `extract_capabilities` returns is a subset
of the fixed allowed vocabulary, and `force_citations=true` always puts
"citations" in the result — for every LLM outcome and every behaviour of
the JSON parser. -/
theorem extract_caps_vocabulary (llm : HttpResult) (parseFn : String → Option Json)
    (task : String) (force : Bool) (caps : List String)
    (h : extract_capabilities llm parseFn task force = .ok caps) :
    (∀ c ∈ caps, c ∈ ALLOWED_CAPS) ∧ (force = true → "citations" ∈ caps) := by
  unfold extract_capabilities at h
  cases hg : ollama_generate llm with
  | error e =>
    rw [hg] at h
    cases e with
    | ollamaConnectionError m =>
      simp only [Except.ok.injEq] at h
      subst h
      exact heuristic_caps_spec task force
    | httpStatusError code => cases h
    | jsonDecodeError => cases h
    | attributeError => cases h
  | ok raw =>
    rw [hg] at h
    dsimp only at h
    cases hp : parseFn (braceSlice raw.trim) with
    | none =>
      rw [hp] at h
      simp only [Except.ok.injEq] at h
      subst h
      exact heuristic_caps_spec task force
    | some obj =>
      rw [hp] at h
      simp only [Except.ok.injEq] at h
      subst h
      exact llmCapsPath_spec obj task force

/-- Witness for C7: unreachable LLM, task "hello", forced citations. -/
theorem extract_caps_vocabulary_witness :
    extract_capabilities .connError (fun _ => none) "hello" true = .ok ["citations"] ∧
    ((∀ c ∈ (["citations"] : List String), c ∈ ALLOWED_CAPS) ∧
      (true = true → "citations" ∈ (["citations"] : List String))) :=
  ⟨by with_unfolding_all rfl,
   extract_caps_vocabulary .connError (fun _ => none) "hello" true ["citations"]
     (by with_unfolding_all rfl)⟩

/-- C8 counterexample: not every failure mode of the LLM call degrades to
the heuristic result — an HTTP error status from the backend makes
`ollama_generate` raise `requests.HTTPError` via `raise_for_status`,
which `extract_capabilities` catches nowhere (only
`OllamaConnectionError` is caught around the call), so the exception
propagates to the caller. -/
theorem extract_caps_http_error_counterexample :
    extract_capabilities (.status 500 none) (fun _ => none) "weather" false =
      .error (.httpStatusError 500) := rfl

/-- C8 (amended): `extract_capabilities` never raises for LLM
connectivity failures, timeouts, or JSON-parse failures — all of these
degrade to the deterministic heuristic result — but an HTTP error status
from the backend propagates as an uncaught `HTTPError`. -/
theorem extract_caps_degrades (parseFn : String → Option Json) (task : String) (force : Bool) :
    extract_capabilities .connError parseFn task force = .ok (heuristic_caps task force) ∧
    extract_capabilities .timeout parseFn task force = .ok (heuristic_caps task force) ∧
    (∀ (code : Nat) (body : Option Json), 400 ≤ code → code < 600 →
      extract_capabilities (.status code body) parseFn task force =
        .error (.httpStatusError code)) ∧
    (∀ (data : Json) (raw : String), responseText data = .ok raw →
      parseFn (braceSlice raw.trim) = none →
      extract_capabilities (.status 200 (some data)) parseFn task force =
        .ok (heuristic_caps task force)) := by
  refine ⟨rfl, rfl, ?_, ?_⟩
  · intro code body h4 h6
    have hg : ollama_generate (.status code body) = .error (.httpStatusError code) := by
      unfold ollama_generate
      dsimp only
      rw [if_pos ⟨h4, h6⟩]
    unfold extract_capabilities
    rw [hg]
  · intro data raw hresp hparse
    have hg : ollama_generate (.status 200 (some data)) = .ok raw := by
      unfold ollama_generate
      dsimp only
      rw [if_neg (by omega)]
      exact hresp
    unfold extract_capabilities
    rw [hg]
    dsimp only
    rw [hparse]

/-- Witness for C8 at concrete outcomes: a connection failure degrades to
the heuristic result and a 500 status propagates as `HTTPError`. -/
theorem extract_caps_degrades_witness :
    extract_capabilities .connError (fun _ => none) "what is the weather" false =
      .ok (heuristic_caps "what is the weather" false) ∧
    extract_capabilities (.status 503 none) (fun _ => none) "what is the weather" false =
      .error (.httpStatusError 503) :=
  ⟨(extract_caps_degrades (fun _ => none) "what is the weather" false).1,
   (extract_caps_degrades (fun _ => none) "what is the weather" false).2.2.1 503 none
     (by decide) (by decide)⟩

/-- A successful association-list lookup yields a member pair. -/
theorem mem_of_lookup {l : List (String × String)} {k v : String}
    (h : l.lookup k = some v) : (k, v) ∈ l := by
  induction l with
  | nil => cases h
  | cons kv rest ih =>
    obtain ⟨k0, v0⟩ := kv
    cases hk : (k == k0) with
    | true =>
      simp only [List.lookup, hk] at h
      cases h
      have : k = k0 := by simpa using hk
      subst this
      exact List.mem_cons_self _ _
    | false =>
      simp only [List.lookup, hk] at h
      exact List.mem_cons_of_mem _ (ih h)

/-- Every id in `validIds` is the app id of some candidate. -/
theorem validIds_spec {cands : List SalesCandidate} {s : String}
    (h : s ∈ validIds cands) : ∃ c ∈ cands, c.app_id = some s := by
  unfold validIds at h
  rw [List.mem_dedup, List.mem_filterMap] at h
  obtain ⟨c, hc, hid⟩ := h
  refine ⟨c, hc, ?_⟩
  unfold truthyId at hid
  cases hca : c.app_id with
  | none => rw [hca] at hid; cases hid
  | some s0 =>
    rw [hca] at hid
    dsimp only at hid
    by_cases h0 : s0 = ""
    · rw [if_pos h0] at hid
      cases hid
    · rw [if_neg h0] at hid
      cases hid
      rfl

/-- Every value of the name-map fold is the app id of a processed
candidate. -/
theorem nameMapFold_values (cands : List SalesCandidate) :
    ∀ st, ∀ kv ∈ (cands.foldl nameMapStep st).1,
      kv ∈ st.1 ∨ ∃ c ∈ cands, c.app_id = some kv.2 := by
  induction cands with
  | nil => exact fun st kv h => Or.inl h
  | cons c rest ih =>
    intro st kv h
    rw [List.foldl_cons] at h
    rcases ih (nameMapStep st c) kv h with h1 | ⟨c2, hm, he⟩
    · unfold nameMapStep at h1
      cases hname : c.name with
      | none => rw [hname] at h1; exact Or.inl h1
      | some nm0 =>
        cases hid : c.app_id with
        | none => rw [hname, hid] at h1; exact Or.inl h1
        | some app0 =>
          rw [hname, hid] at h1
          dsimp only at h1
          split at h1
          · exact Or.inl h1
          · split at h1
            · split at h1
              · exact Or.inl h1
              · exact Or.inl h1
            · rcases List.mem_append.1 h1 with h2 | h2
              · exact Or.inl h2
              · rw [List.mem_singleton] at h2
                subst h2
                exact Or.inr ⟨c, List.mem_cons_self c rest, hid⟩
    · exact Or.inr ⟨c2, List.mem_cons_of_mem c hm, he⟩

/-- Every value of the collision-pruned `nameMap` is a candidate app
id. -/
theorem nameMap_values {cands : List SalesCandidate} {kv : String × String}
    (h : kv ∈ nameMap cands) : ∃ c ∈ cands, c.app_id = some kv.2 := by
  unfold nameMap at h
  have h1 := List.mem_of_mem_filter h
  rcases nameMapFold_values cands ([], []) kv h1 with h2 | h2
  · exact absurd h2 (List.not_mem_nil kv)
  · exact h2

/-- An id resolved against `validIds`/`nameMap` is a candidate app id. -/
theorem resolveAppId_spec {cands : List SalesCandidate} {v : Json} {r : String}
    (h : resolveAppId v (validIds cands) (nameMap cands) = some r) :
    ∃ c ∈ cands, c.app_id = some r := by
  unfold resolveAppId at h
  cases v with
  | str s =>
    dsimp only at h
    by_cases h0 : s.trim = ""
    · rw [if_pos h0] at h
      cases h
    · rw [if_neg h0] at h
      by_cases h1 : (validIds cands).contains s.trim = true
      · rw [if_pos h1] at h
        cases h
        exact validIds_spec (by simpa using h1)
      · rw [if_neg h1] at h
        by_cases h2 : (validIds cands).contains s.trim.toLower = true
        · rw [if_pos h2] at h
          cases h
          exact validIds_spec (by simpa using h2)
        · rw [if_neg h2] at h
          cases hm : (validIds cands).filter
              (fun vid => strContains s.trim.toLower vid) with
          | nil =>
            rw [hm] at h
            exact nameMap_values (mem_of_lookup h)
          | cons m tail =>
            cases tail with
            | nil =>
              rw [hm] at h
              cases h
              have hmm : r ∈ (validIds cands).filter
                  (fun vid => strContains s.trim.toLower vid) := by
                rw [hm]
                exact List.mem_cons_self _ _
              exact validIds_spec (List.mem_of_mem_filter hmm)
            | cons m2 tail2 =>
              rw [hm] at h
              exact nameMap_values (mem_of_lookup h)
  | null => cases h
  | bool b => cases h
  | num q => cases h
  | arr xs => cases h
  | obj kvs => cases h

/-- Loop invariant of `parseRecs`: on success the accumulated ids equal
the seen list, lengths add up, every parsed entry is old or resolves
against the candidate tables, and nodup of `seen` is preserved. -/
theorem parseRecs_spec (cands : List SalesCandidate) (valid : List String)
    (nm : List (String × String)) :
    ∀ (recs : List Json) (seen : List String) (acc : List ParsedRec)
      (parsed : List ParsedRec) (seen' : List String),
      parseRecs cands valid nm recs seen acc = .ok (parsed, seen') →
      acc.map (·.app_id) = seen →
      parsed.map (·.app_id) = seen' ∧
      parsed.length = acc.length + recs.length ∧
      (∀ p ∈ parsed, p ∈ acc ∨ ∃ v, resolveAppId v valid nm = some p.app_id) ∧
      (seen.Nodup → seen'.Nodup) := by
  intro recs
  induction recs with
  | nil =>
    intro seen acc parsed seen' h hacc
    rw [parseRecs] at h
    cases h
    exact ⟨hacc, by simp, fun p hp => Or.inl hp, fun hn => hn⟩
  | cons rec rest ih =>
    intro seen acc parsed seen' h hacc
    cases rec with
    | obj kvs =>
      rw [parseRecs] at h
      cases hres : resolveAppId (coerceChoice (jsonGetD kvs "app_id")) valid nm with
      | none => rw [hres] at h; cases h
      | some resolved =>
        rw [hres] at h
        dsimp only at h
        by_cases hseen : seen.contains resolved = true
        · rw [if_pos hseen] at h
          cases h
        · rw [if_neg hseen] at h
          cases hra : fieldOrBackfill (jsonGetD kvs "rationale")
              (backfillRationale (candidateMapGet cands resolved)) with
          | none => rw [hra] at h; cases h
          | some rationale =>
            rw [hra] at h
            dsimp only at h
            by_cases hrb : rationale.trim = ""
            · rw [if_pos hrb] at h
              cases h
            · rw [if_neg hrb] at h
              cases htr : fieldOrBackfill (jsonGetD kvs "tradeoff")
                  (backfillTradeoff (candidateMapGet cands resolved)) with
              | none => rw [htr] at h; cases h
              | some tradeoff =>
                rw [htr] at h
                dsimp only at h
                by_cases htb : tradeoff.trim = ""
                · rw [if_pos htb] at h
                  cases h
                · rw [if_neg htb] at h
                  have hacc2 :
                      (acc ++ [{ app_id := resolved, rationale := rationale.trim, tradeoff := tradeoff.trim : ParsedRec }]).map
                        (·.app_id) = seen ++ [resolved] := by
                    rw [List.map_append, hacc]
                    rfl
                  obtain ⟨h1, h2, h3, h4⟩ := ih _ _ _ _ h hacc2
                  refine ⟨h1, by simp at h2 ⊢; omega, ?_, ?_⟩
                  · intro p hp
                    rcases h3 p hp with hp1 | hp2
                    · rcases List.mem_append.1 hp1 with hp3 | hp3
                      · exact Or.inl hp3
                      · rw [List.mem_singleton] at hp3
                        subst hp3
                        exact Or.inr ⟨_, hres⟩
                    · exact Or.inr hp2
                  · intro hn
                    apply h4
                    rw [List.nodup_append]
                    refine ⟨hn, List.nodup_singleton _, ?_⟩
                    intro a ha hb
                    rw [List.mem_singleton] at hb
                    subst hb
                    exact hseen (by simpa using ha)
    | null => simp [parseRecs] at h
    | bool b => simp [parseRecs] at h
    | num q => simp [parseRecs] at h
    | str s => simp [parseRecs] at h
    | arr xs => simp [parseRecs] at h

/-- The auto-corrected final choice is always one of the seen ids,
provided the fallback is. -/
theorem resolveFinal_mem {o : Option String} {seen : List String} {first : String}
    (hf : first ∈ seen) : resolveFinal o seen first ∈ seen := by
  unfold resolveFinal
  cases o with
  | none => exact hf
  | some f =>
    dsimp only
    by_cases hc : seen.contains f = true
    · rw [if_pos hc]
      simpa using hc
    · rw [if_neg hc]
      exact hf

/-- C2 counterexample: with a candidate whose app id is the literal
string `NO_MATCH` (resolvable through the normalized-name table), a
payload is accepted whose final choice is `NO_MATCH` while the
recommendation list is non-empty — refuting "a final_choice of NO_MATCH
is accompanied by an empty recommendation list" as stated. -/
theorem sales_no_match_with_recs_counterexample :
    parse_sales_payload payloadNoMatch [candNoMatch] =
      .ok { summary := "s"
            final_choice := "NO_MATCH"
            recommendations := [{ app_id := "NO_MATCH", rationale := "r", tradeoff := "t" }] } ∧
    ¬([(⟨"NO_MATCH", "r", "t"⟩ : ParsedRec)] = ([] : List ParsedRec)) :=
  ⟨by with_unfolding_all rfl, by simp⟩

/-- C2 (amended): for every payload `_parse_sales_payload` accepts over a
candidate list none of whose app ids is the literal sentinel `NO_MATCH`:
every recommendation's app id is a candidate app id; a `NO_MATCH` final
choice comes with an empty recommendation list; otherwise there are 1–3
recommendations with no duplicate ids and the final choice is one of
them; and a final choice that is unresolvable or absent from the
recommendation set is replaced by the first recommendation's app id. -/
theorem sales_payload_integrity (payload : List (String × Json))
    (cands : List SalesCandidate) (res : SalesResult)
    (hnm : ∀ c ∈ cands, c.app_id ≠ some "NO_MATCH")
    (h : parse_sales_payload payload cands = .ok res) :
    (∀ p ∈ res.recommendations, ∃ c ∈ cands, c.app_id = some p.app_id) ∧
    (res.final_choice = "NO_MATCH" → res.recommendations = []) ∧
    (res.final_choice ≠ "NO_MATCH" →
      1 ≤ res.recommendations.length ∧ res.recommendations.length ≤ 3 ∧
      (res.recommendations.map (·.app_id)).Nodup ∧
      res.final_choice ∈ res.recommendations.map (·.app_id)) ∧
    (∀ p ps, res.recommendations = p :: ps →
      (resolvedFinalOf payload cands = none → res.final_choice = p.app_id) ∧
      (∀ rf, resolvedFinalOf payload cands = some rf →
        rf ∉ res.recommendations.map (·.app_id) → res.final_choice = p.app_id)) := by
  unfold parse_sales_payload at h
  cases hsum : jsonGetD payload "summary" with
  | str summary =>
    rw [hsum] at h
    dsimp only at h
    by_cases hs0 : summary.trim = ""
    · rw [if_pos hs0] at h
      cases h
    · rw [if_neg hs0] at h
      cases hrecs : jsonGetD payload "recommendations" with
      | arr recs =>
        rw [hrecs] at h
        dsimp only at h
        by_cases hNM : salesFinalChoice payload = some "NO_MATCH"
        · rw [if_pos hNM] at h
          split at h
          · cases h
          · cases h
            refine ⟨by simp, fun _ => rfl, fun hne => absurd rfl hne, ?_⟩
            intro p ps hcontra
            cases hcontra
        · rw [if_neg hNM] at h
          by_cases hre : recs.isEmpty = true
          · rw [if_pos hre] at h
            cases h
          · rw [if_neg hre] at h
            by_cases hlen : recs.length > 3
            · rw [if_pos hlen] at h
              cases h
            · rw [if_neg hlen] at h
              cases hpr : parseRecs cands (validIds cands) (nameMap cands) recs [] [] with
              | error e =>
                rw [hpr] at h
                cases h
              | ok pr =>
                obtain ⟨parsed, seen⟩ := pr
                rw [hpr] at h
                dsimp only at h
                cases parsed with
                | nil => cases h
                | cons p prest =>
                  obtain ⟨hmap, hlen2, hmem, hnd⟩ :=
                    parseRecs_spec cands (validIds cands) (nameMap cands) recs [] []
                      (p :: prest) seen hpr rfl
                  cases h
                  have hid_of : ∀ x, x ∈ (p :: prest).map (·.app_id) →
                      ∃ c ∈ cands, c.app_id = some x := by
                    intro x hx
                    rw [List.mem_map] at hx
                    obtain ⟨q, hq, hqe⟩ := hx
                    subst hqe
                    rcases hmem q hq with hq0 | ⟨v, hv⟩
                    · exact absurd hq0 (List.not_mem_nil q)
                    · exact resolveAppId_spec hv
                  have hid_ne : ∀ x, x ∈ (p :: prest).map (·.app_id) → x ≠ "NO_MATCH" := by
                    intro x hx hEq
                    subst hEq
                    obtain ⟨c, hc, hca⟩ := hid_of _ hx
                    exact hnm c hc hca
                  have hfmem : resolveFinal (resolvedFinalOf payload cands) seen p.app_id
                      ∈ (p :: prest).map (·.app_id) := by
                    rw [hmap]
                    exact resolveFinal_mem (by rw [← hmap]; exact List.mem_map_of_mem _ (List.mem_cons_self p prest))
                  refine ⟨?_, ?_, ?_, ?_⟩
                  · intro q hq
                    rcases hmem q hq with hq0 | ⟨v, hv⟩
                    · exact absurd hq0 (List.not_mem_nil q)
                    · exact resolveAppId_spec hv
                  · intro hfc
                    exact absurd hfc (hid_ne _ hfmem)
                  · intro _
                    refine ⟨?_, ?_, ?_, hfmem⟩
                    · show 1 ≤ (p :: prest).length
                      simp
                    · show (p :: prest).length ≤ 3
                      have h3 : (p :: prest).length = recs.length := by simpa using hlen2
                      omega
                    · show ((p :: prest).map (·.app_id)).Nodup
                      rw [hmap]
                      exact hnd List.nodup_nil
                  · intro p0 ps0 he
                    replace he : p :: prest = p0 :: ps0 := he
                    cases he
                    constructor
                    · intro hrfo
                      show resolveFinal (resolvedFinalOf payload cands) seen p.app_id = p.app_id
                      rw [hrfo]
                      rfl
                    · intro rf hrfo hnotin
                      show resolveFinal (resolvedFinalOf payload cands) seen p.app_id = p.app_id
                      rw [hrfo]
                      unfold resolveFinal
                      dsimp only
                      rw [if_neg]
                      intro hcont
                      apply hnotin
                      show rf ∈ (p :: prest).map (·.app_id)
                      rw [hmap]
                      simpa using hcont

      | null => rw [hrecs] at h; cases h
      | bool b => rw [hrecs] at h; cases h
      | num q => rw [hrecs] at h; cases h
      | str s => rw [hrecs] at h; cases h
      | obj kvs => rw [hrecs] at h; cases h
  | null => rw [hsum] at h; cases h
  | bool b => rw [hsum] at h; cases h
  | num q => rw [hsum] at h; cases h
  | arr xs => rw [hsum] at h; cases h
  | obj kvs => rw [hsum] at h; cases h

/-- Witness for C2: a payload with a hallucinated final choice over one
ordinary candidate parses successfully; the theorem's id-integrity
conclusion is instantiated at its single recommendation. -/
theorem sales_payload_integrity_witness :
    parse_sales_payload payloadOne [candOne] =
      .ok { summary := "pick app1"
            final_choice := "app1"
            recommendations :=
              [{ app_id := "app1"
                 rationale := "Capabilities: weather; Freshness: realtime; Supports citations"
                 tradeoff := "Estimated latency: 800ms; Estimated cost: $0.0000" }] } ∧
    (∃ c ∈ [candOne], c.app_id = some "app1") := by
  have hp : parse_sales_payload payloadOne [candOne] =
      .ok { summary := "pick app1"
            final_choice := "app1"
            recommendations :=
              [{ app_id := "app1"
                 rationale := "Capabilities: weather; Freshness: realtime; Supports citations"
                 tradeoff := "Estimated latency: 800ms; Estimated cost: $0.0000" }] } := by
    with_unfolding_all rfl
  refine ⟨hp, ?_⟩
  have h2 := sales_payload_integrity payloadOne [candOne] _ (by decide) hp
  exact h2.1
    { app_id := "app1"
      rationale := "Capabilities: weather; Freshness: realtime; Supports citations"
      tradeoff := "Estimated latency: 800ms; Estimated cost: $0.0000" }
    (List.mem_singleton.2 rfl)

/-- A scored entry produced by `scoreOne` carries the scored app. -/
theorem scoreOne_app {cs : Constraints} {required : List String} {a : AppDict} {rel : Rat}
    {entry : Rat × AppDict × List String}
    (h : scoreOne cs required a rel = some (some entry)) : entry.2.1 = a := by
  unfold scoreOne at h
  cases hl : latency_score a.latency_est_ms cs.max_latency_ms with
  | none => rw [hl] at h; cases h
  | some lat =>
    rw [hl] at h
    dsimp only at h
    split at h
    · cases h
    · split at h
      · cases h
      · cases h
        rfl

/-- Every entry of a successful scoring loop scores an app from the input
list. -/
theorem scoreList_mem {cs : Constraints} {required : List String} :
    ∀ (apps : List AppDict) (rels : List Rat)
      (scored : List (Rat × AppDict × List String)),
      scoreList cs required apps rels = some scored →
      ∀ e ∈ scored, e.2.1 ∈ apps := by
  intro apps
  induction apps with
  | nil =>
    intro rels scored h e he
    rw [scoreList] at h
    cases h
    exact absurd he (List.not_mem_nil e)
  | cons a rest ih =>
    intro rels scored h e he
    rw [scoreList] at h
    cases hs1 : scoreOne cs required a (rels.headD 0) with
    | none => rw [hs1] at h; cases h
    | some o =>
      rw [hs1] at h
      cases o with
      | none => exact List.mem_cons_of_mem a (ih _ _ h e he)
      | some entry =>
        cases hs2 : scoreList cs required rest rels.tail with
        | none => rw [hs2] at h; cases h
        | some scored2 =>
          rw [hs2] at h
          cases h
          rcases List.mem_cons.1 he with he1 | he1
          · subst he1
            rw [scoreOne_app hs1]
            exact List.mem_cons_self a rest
          · exact List.mem_cons_of_mem a (ih _ _ hs2 e he1)

/-- Unpacking the four hard-filter conditions from `hardPass`. -/
theorem hardPass_spec {cs : Constraints} {a : AppDict} (h : hardPass cs a = true) :
    (∀ f, cs.freshness = some f → a.freshness = f) ∧
    (cs.citations_required = true → a.citations_supported = true) ∧
    (∀ m, cs.max_latency_ms = some m → a.latency_est_ms ≤ m) ∧
    (∀ m, cs.max_cost_usd = some m → a.cost_est_usd ≤ m) := by
  unfold hardPass at h
  simp only [Bool.and_eq_true] at h
  obtain ⟨⟨⟨h1, h2⟩, h3⟩, h4⟩ := h
  refine ⟨?_, ?_, ?_, ?_⟩
  · intro f hf
    rw [hf] at h1
    simpa using h1
  · intro hc
    rw [hc] at h2
    simpa using h2
  · intro m hm
    rw [hm] at h3
    simpa using h3
  · intro m hm
    rw [hm] at h4
    simpa using h4

/-- C1: the ranked list returned by the router contains no candidate that
violates a hard filter — every recommendation comes from an input app
whose freshness matches a set freshness constraint, that supports
citations when they are required, and whose latency and cost estimates do
not exceed set maxima. -/
theorem router_hard_filter_correct (sqrtFn logFn : Rat → Rat) (req : ShopRequest)
    (apps : List AppDict) (k : Nat) (p : List Recommendation × List String)
    (h : recommend sqrtFn logFn req apps k = some p) :
    ∀ r ∈ p.1, ∃ a ∈ apps, r.app_id = a.id ∧ r.name = a.name ∧
      (∀ f, req.constraints.freshness = some f → a.freshness = f) ∧
      (req.constraints.citations_required = true → a.citations_supported = true) ∧
      (∀ m, req.constraints.max_latency_ms = some m → a.latency_est_ms ≤ m) ∧
      (∀ m, req.constraints.max_cost_usd = some m → a.cost_est_usd ≤ m) := by
  intro r hr
  unfold recommend at h
  dsimp only at h
  split at h
  · cases h
    exact absurd hr (List.not_mem_nil r)
  · split at h
    · cases h
    · rename_i scored heq
      split at h
      · split at h
        · cases h
          exact absurd hr (List.not_mem_nil r)
        · cases h
          exact absurd hr (List.not_mem_nil r)
      · split at h
        · cases h
          exact absurd hr (List.not_mem_nil r)
        · rename_i top rest hsort
          split at h
          · cases h
            exact absurd hr (List.not_mem_nil r)
          · cases h
            rw [List.mem_map] at hr
            obtain ⟨e, he, hre⟩ := hr
            subst hre
            have he2 : e ∈ scored.mergeSort (fun x y => decide (y.1 ≤ x.1)) :=
              List.take_subset _ _ he
            rw [List.mem_mergeSort] at he2
            have he3 := scoreList_mem _ _ _ heq e he2
            rw [List.mem_filter] at he3
            obtain ⟨ha, hpass⟩ := he3
            obtain ⟨c1, c2, c3, c4⟩ := hardPass_spec hpass
            exact ⟨e.2.1, ha, rfl, rfl, c1, c2, c3, c4⟩

/-- Witness for C1: one candidate surviving an unconstrained request; the
returned recommendation is backed by that candidate. -/
theorem router_hard_filter_correct_witness :
    recommend sqrtOne logZero reqWeather [appWeather] 3 =
      some ([{ app_id := "w"
               name := "weather"
               score := 473/500
               why := ["No required_capabilities specified; not penalized on capability coverage.",
                       "Trust score: 0.50", "Relevance score: 1.00", "Estimated latency: 1ms",
                       "Estimated cost: $0.0000"]
               trust_score := none }], []) ∧
    ∃ a ∈ [appWeather], ("w" : String) = a.id ∧ ("weather" : String) = a.name ∧
      (∀ f, reqWeather.constraints.freshness = some f → a.freshness = f) ∧
      (reqWeather.constraints.citations_required = true → a.citations_supported = true) ∧
      (∀ m, reqWeather.constraints.max_latency_ms = some m → a.latency_est_ms ≤ m) ∧
      (∀ m, reqWeather.constraints.max_cost_usd = some m → a.cost_est_usd ≤ m) := by
  have hp : recommend sqrtOne logZero reqWeather [appWeather] 3 =
      some ([{ app_id := "w"
               name := "weather"
               score := 473/500
               why := ["No required_capabilities specified; not penalized on capability coverage.",
                       "Trust score: 0.50", "Relevance score: 1.00", "Estimated latency: 1ms",
                       "Estimated cost: $0.0000"]
               trust_score := none }], []) := by
    with_unfolding_all rfl
  refine ⟨hp, ?_⟩
  exact router_hard_filter_correct sqrtOne logZero reqWeather [appWeather] 3 _ hp _
    (List.mem_singleton.2 rfl)

/-- C4 counterexample: when the hard filters exclude every candidate
(here: citations required, the only candidate does not support them),
`recommend` returns an empty recommendation list with an *empty* reason
list — no filter or threshold is named, refuting the claim as stated. -/
theorem router_empty_reason_counterexample :
    recommend sqrtOne logZero reqCite [appNoCite] 3 = some ([], []) := by
  with_unfolding_all rfl

/-- C4 (amended): when `recommend` returns no recommendations, the reason
list is non-empty and cites a threshold — the capability-coverage
threshold, the relevance threshold, or the minimum-total-score bar —
whenever the soft thresholds dropped every scored candidate; but when the
hard filters excluded every candidate (or `k = 0` results were
requested), both the recommendation list and the reason list are
empty. -/
theorem router_empty_reason_spec (sqrtFn logFn : Rat → Rat) (req : ShopRequest)
    (apps : List AppDict) (k : Nat) (p : List Recommendation × List String)
    (h : recommend sqrtFn logFn req apps k = some p) (hempty : p.1 = []) :
    (p.2 = [] → (apps.filter (hardPass req.constraints) = [] ∨ k = 0)) ∧
    (p.2 ≠ [] →
      p.2 = ["No apps met minimum capability coverage (" ++ fmt2 MIN_CAP_COVERAGE ++ ")."] ∨
      p.2 = ["No apps met minimum relevance score (" ++ fmt2 MIN_RELEVANCE_SCORE ++ ")."] ∨
      ∃ q, q < MIN_TOTAL_SCORE ∧
        p.2 = ["Top score " ++ fmt2 q ++ " below minimum " ++ fmt2 MIN_TOTAL_SCORE ++ "."]) := by
  unfold recommend at h
  dsimp only at h
  split at h
  · rename_i hfE
    cases h
    refine ⟨fun _ => Or.inl ?_, fun hne => absurd rfl hne⟩
    simpa using hfE
  · split at h
    · cases h
    · rename_i scored heq
      split at h
      · split at h
        · cases h
          refine ⟨fun h0 => ?_, fun _ => Or.inl rfl⟩
          simp at h0
        · cases h
          refine ⟨fun h0 => ?_, fun _ => Or.inr (Or.inl rfl)⟩
          simp at h0
      · rename_i hsne
        split at h
        · rename_i hsort
          cases h
          have hperm := List.mergeSort_perm scored (fun x y => decide (y.1 ≤ x.1))
          rw [hsort] at hperm
          have : scored = [] := hperm.symm.eq_nil
          rw [this] at hsne
          simp at hsne
        · rename_i top rest hsort
          split at h
          · rename_i hlt
            cases h
            exact ⟨fun h0 => by simp at h0, fun _ => Or.inr (Or.inr ⟨top.1, hlt, rfl⟩)⟩
          · cases h
            refine ⟨fun _ => Or.inr ?_, fun hne => absurd rfl hne⟩
            have htk : (scored.mergeSort (fun x y => decide (y.1 ≤ x.1))).take k = [] :=
              List.map_eq_nil_iff.1 hempty
            rcases List.take_eq_nil_iff.1 htk with hk | hk
            · exact hk
            · rw [hsort] at hk
              cases hk

/-- Witness for C4: a required capability no candidate covers — every
candidate is dropped by the coverage threshold and the reason cites it. -/
theorem router_empty_reason_spec_witness :
    recommend sqrtOne logZero reqFinance [appWeather] 3 =
      some ([], ["No apps met minimum capability coverage (1.00)."]) ∧
    (["No apps met minimum capability coverage (1.00)."] =
        ["No apps met minimum capability coverage (" ++ fmt2 MIN_CAP_COVERAGE ++ ")."] ∨
     ["No apps met minimum capability coverage (1.00)."] =
        ["No apps met minimum relevance score (" ++ fmt2 MIN_RELEVANCE_SCORE ++ ")."] ∨
     ∃ q, q < MIN_TOTAL_SCORE ∧
       ["No apps met minimum capability coverage (1.00)."] =
        ["Top score " ++ fmt2 q ++ " below minimum " ++ fmt2 MIN_TOTAL_SCORE ++ "."]) := by
  have hp : recommend sqrtOne logZero reqFinance [appWeather] 3 =
      some ([], ["No apps met minimum capability coverage (1.00)."]) := by
    with_unfolding_all rfl
  refine ⟨hp, ?_⟩
  exact (router_empty_reason_spec sqrtOne logZero reqFinance [appWeather] 3 _ hp rfl).2
    (by simp)

end Axiomeer
